import Mathlib

/-!
Verification development for the IntegrIA course-management application
("integria-connect"). The definitions below are a shallow embedding of the
Course Session & Attendance Consistency Engine: the recurring-session
generator of `src/components/courses/CourseSessionsDialog.tsx`, the
enrollment path of `src/pages/Courses.tsx`, the attendance upsert and
lookup of the course-enrollments dialog, and the course-form validation
schema of `src/components/courses/CourseFormDialog.tsx`, together with the
uniqueness constraints declared in the SQL migrations.

Dates are represented by their civil day number (proleptic Gregorian),
which embeds the semantics of the date-fns `parseISO` / `addDays` /
`getDay` helpers used by the generator. JavaScript `string | null` fields
become `Option String`; remote-call outcomes become explicit result
constructors, so that "a toast was shown and no insert was attempted" is a
statement about which constructor the embedded function returns.
-/

namespace IntegriaConnect

/-- Calendar date (proleptic Gregorian). Stands for the ISO `yyyy-MM-dd`
strings stored in the `courses.start_date` / `courses.end_date` columns and
parsed by `parseISO`. -/
structure Date where
  year : Nat
  month : Nat
  day : Nat
deriving DecidableEq, Repr

/-- Civil day number of a date: the days-from-civil algorithm (era of 400
years = 146097 days), valid for positive years; 1970-01-01 is day 719468.
This is the day arithmetic that `parseISO` + `addDays` perform on the
course date range. -/
def Date.toDay (dt : Date) : Nat :=
  let y := if dt.month ≤ 2 then dt.year - 1 else dt.year
  let era := y / 400
  let yoe := y % 400
  let mp := (dt.month + 9) % 12
  let doy := (153 * mp + 2) / 5 + dt.day - 1
  let doe := yoe * 365 + yoe / 4 - yoe / 100 + doy
  era * 146097 + doe

/-- Day of week of a civil day number in the JavaScript `Date.getDay`
convention used by date-fns `getDay`: 0 = Sunday, ..., 6 = Saturday.
Day 719468 (1970-01-01) was a Thursday (4). -/
def getDay (n : Nat) : Nat := (n + 3) % 7

/-- The `DAY_MAP` lookup object of `CourseSessionsDialog.tsx`: weekday
token to `getDay` number; an unknown key yields `undefined` (`none`). -/
def DAY_MAP (d : String) : Option Nat :=
  if d = "sunday" then some 0
  else if d = "monday" then some 1
  else if d = "tuesday" then some 2
  else if d = "wednesday" then some 3
  else if d = "thursday" then some 4
  else if d = "friday" then some 5
  else if d = "saturday" then some 6
  else none

/-- JavaScript `a || b` for `a : string | null`: `null` and the empty
string are falsy, any other string is taken as is. -/
def jsOrString (a : Option String) (b : String) : String :=
  match a with
  | none => b
  | some s => if s = "" then b else s

/-- Numeric value of a list of decimal digit characters, most significant
first. -/
def digitsVal (cs : List Char) : Nat :=
  cs.foldl (fun acc c => acc * 10 + (c.toNat - 48)) 0

/-- First maximal run of decimal digits in a character list: embeds the
regex match `/(\d+)/` on the free-text duration field. `none` when the
string contains no digit. -/
def firstDigitRun : List Char → Option (List Char)
  | [] => none
  | c :: rest =>
    if c.isDigit then some (c :: rest.takeWhile Char.isDigit)
    else firstDigitRun rest

/-- Embeds `durationMatch ? parseInt(durationMatch[1]) : 2`: the value of
the first digit run of the duration text, defaulting to 2 hours. -/
def parseDurationHours (s : String) : Nat :=
  match firstDigitRun s.data with
  | some run => digitsVal run
  | none => 2

/-- JavaScript `Number()` restricted to the strings reachable from the
time fields: the empty string converts to 0, a nonempty all-digit string
to its value, anything else to NaN (`none`). -/
def jsNumber (s : String) : Option Nat :=
  if s = "" then some 0
  else if s.data.all Char.isDigit then some (digitsVal s.data) else none

/-- Decimal digit characters of a natural number, most significant first;
the first argument is structural fuel (any fuel ≥ 1 + log10 n is exact,
and the callers pass n + 1). -/
def natDigits : Nat → Nat → List Char
  | 0, _ => []
  | f + 1, n =>
    if n < 10 then [Nat.digitChar n]
    else natDigits f (n / 10) ++ [Nat.digitChar (n % 10)]

/-- Decimal representation of a natural number, as JavaScript
`Number.prototype.toString` renders it. -/
def natRepr (n : Nat) : String := ⟨natDigits (n + 1) n⟩

/-- JavaScript `toString` on a possibly-NaN number: NaN prints as "NaN". -/
def jsNumToString : Option Nat → String
  | some n => natRepr n
  | none => "NaN"

/-- JavaScript `String.prototype.padStart(2, ZERO)`: left-pad with the
zero digit up to length 2. -/
def padStart2 (s : String) : String :=
  if s.length ≥ 2 then s else ⟨List.replicate (2 - s.length) '0' ++ s.data⟩

/-- One row of the bulk `course_sessions` insert assembled by
`generateSessions` (the `Omit CourseSession id` records). `session_date`
is the civil day number of the formatted `yyyy-MM-dd` date. -/
structure SessionInsert where
  course_id : String
  session_date : Nat
  start_time : String
  end_time : String
  location : Option String
  notes : Option String
  is_cancelled : Bool
deriving DecidableEq, Repr

/-- The course fields consumed by the sessions dialog
(`CourseSessionsDialogProps`). -/
structure Course where
  id : String
  title : String
  start_date : Date
  end_date : Option Date
  schedule_days : Option (List String)
  schedule_time : Option String
  duration : String
deriving DecidableEq, Repr

/-- Outcome of one `generateSessions` invocation, identifying which toast
was raised and whether the remote bulk insert was attempted:
`validationError` is the destructive "El curso debe tener días de clase y
fecha de fin" toast raised before any remote call; `thrownError` is the
catch-all destructive toast for an exception thrown while computing
(reachable only for a start time with no colon); `noSessions` is the
non-destructive "Sin sesiones" toast; `inserted` is the single bulk
insert call with the listed records. -/
inductive GenerateResult where
  | validationError (message : String)
  | thrownError
  | noSessions
  | inserted (sessions : List SessionInsert)
deriving DecidableEq, Repr

/-- The date loop of `generateSessions`: starting at civil day `cur`,
visit `n` consecutive days (the `while (currentDate <= endDate)` loop
performs exactly `endDay + 1 - startDay` iterations), keeping the days
whose weekday is in the mapped schedule set. An unmapped weekday token is
`undefined` and never equals a `getDay` number, hence the `Option Nat`
membership test. -/
def expandLoop (cur : Nat) (scheduleDays : List (Option Nat)) : Nat → List Nat
  | 0 => []
  | n + 1 =>
    if some (getDay cur) ∈ scheduleDays then
      cur :: expandLoop (cur + 1) scheduleDays n
    else expandLoop (cur + 1) scheduleDays n

/-- JavaScript `String.prototype.split(sep)` for a single-character
separator, on character lists: splits at every occurrence, keeping empty
pieces, and always returns at least one piece. -/
def splitOnChar (sep : Char) : List Char → List (List Char)
  | [] => [[]]
  | c :: rest =>
    if c = sep then [] :: splitOnChar sep rest
    else
      match splitOnChar sep rest with
      | [] => [[c]]
      | p :: ps => (c :: p) :: ps

/-- The end-time computation of `generateSessions`:
`[hours, minutes] = startTime.split(COLON).map(Number)` followed by
`endTimeHours = hours + durationHours` and template formatting with
`padStart(2, ZERO)`. When the start time contains no colon, `minutes` is
`undefined` and `minutes.toString()` throws, which the surrounding catch
turns into the generic error toast — modelled as `none`. There is no
reduction modulo 24: the end hour is the plain sum. -/
def computeEndTime (startTime : String) (durationHours : Nat) : Option String :=
  match splitOnChar ':' startTime.data with
  | [] => none
  | [_] => none
  | h :: m :: _ =>
    let hours := jsNumber ⟨h⟩
    let minutes := jsNumber ⟨m⟩
    let endTimeHours := hours.map (fun x => x + durationHours)
    some (padStart2 (jsNumToString endTimeHours) ++ ":" ++
          padStart2 (jsNumToString minutes))

/-- The `generateSessions` function of `CourseSessionsDialog.tsx`. The
guard `!course || !course.schedule_days || !course.end_date` raises the
validation toast and returns before any remote call (an empty
`schedule_days` array is truthy in JavaScript and passes the guard);
otherwise the date range is expanded, and either the "Sin sesiones" toast
is raised (empty expansion, no insert) or the bulk insert is attempted
with the assembled records. -/
def generateSessions (course : Option Course) : GenerateResult :=
  match course with
  | none => .validationError "El curso debe tener días de clase y fecha de fin"
  | some c =>
    match c.schedule_days, c.end_date with
    | some ds, some ed =>
      let startDay := c.start_date.toDay
      let endDay := ed.toDay
      let scheduleDays := ds.map DAY_MAP
      let startTime := jsOrString c.schedule_time "10:00"
      let durationHours := parseDurationHours c.duration
      match computeEndTime startTime durationHours with
      | none => .thrownError
      | some endTime =>
        let dates := expandLoop startDay scheduleDays (endDay + 1 - startDay)
        let sessionsToCreate := dates.map (fun d =>
          { course_id := c.id
            session_date := d
            start_time := startTime
            end_time := endTime
            location := none
            notes := none
            is_cancelled := false : SessionInsert })
        if sessionsToCreate.length = 0 then .noSessions
        else .inserted sessionsToCreate
    | _, _ => .validationError "El curso debe tener días de clase y fecha de fin"

/-- One row of the `attendance` table
(migration 20251226122954): `id` is the generated primary key,
`(session_id, user_id)` carries a UNIQUE constraint, and `status` carries
the CHECK constraint `status IN (present, absent, excused, pending)`. -/
structure AttendanceRow where
  id : Nat
  session_id : String
  user_id : String
  status : String
deriving DecidableEq, Repr

/-- The `attendance` table state: its rows plus the next fresh primary
key. -/
structure AttendanceState where
  rows : List AttendanceRow
  nextId : Nat
deriving DecidableEq, Repr

/-- The row-lookup predicate used by both `updateAttendance` and
`getAttendanceStatus`: `a.session_id === selectedSession && a.user_id ===
userId`. -/
def attendanceMatches (sessionId userId : String) (a : AttendanceRow) : Bool :=
  a.session_id == sessionId && a.user_id == userId

/-- The `updateAttendance` function of the course-enrollments dialog:
look for an existing row for the `(session, user)` pair among the fetched
attendances; if one exists, update that row's status by its id, otherwise
insert a new row for the pair with the given status. The fetched cache is
the table state itself (every mutation is followed by a re-fetch). -/
def updateAttendance (st : AttendanceState) (sessionId userId status : String) :
    AttendanceState :=
  match st.rows.find? (attendanceMatches sessionId userId) with
  | some existing =>
    { st with
      rows := st.rows.map (fun r =>
        if r.id == existing.id then { r with status := status } else r) }
  | none =>
    { rows := st.rows ++ [⟨st.nextId, sessionId, userId, status⟩]
      nextId := st.nextId + 1 }

/-- The `getAttendanceStatus` function of the course-enrollments dialog:
the status of the row for the `(session, user)` pair, or "pending" when
no row exists. -/
def getAttendanceStatus (attendances : List AttendanceRow)
    (selectedSession userId : String) : String :=
  match attendances.find? (attendanceMatches selectedSession userId) with
  | some a => a.status
  | none => "pending"

/-- The statuses allowed by the CHECK constraint on `attendance.status`. -/
def validAttendanceStatus (s : String) : Bool :=
  s == "present" || s == "absent" || s == "excused" || s == "pending"

/-- Database invariant from `UNIQUE(session_id, user_id)` on `attendance`
(and uniqueness of the generated primary key): no two rows share a
`(session_id, user_id)` pair and no two rows share an id. -/
def attendanceWF (rows : List AttendanceRow) : Prop :=
  rows.Pairwise (fun a b =>
    ¬(a.session_id = b.session_id ∧ a.user_id = b.user_id) ∧ a.id ≠ b.id)

/-- One row of the `enrollments` table, restricted to the key columns:
`UNIQUE (user_id, course_id)` (migration in the base schema). -/
structure EnrollmentRow where
  user_id : String
  course_id : String
deriving DecidableEq, Repr

/-- An insert into the `enrollments` table as the backend performs it:
the UNIQUE `(user_id, course_id)` constraint rejects a duplicate pair
with the structured error code 23505, otherwise the row is appended. -/
def dbInsertEnrollment (rows : List EnrollmentRow) (r : EnrollmentRow) :
    Except String (List EnrollmentRow) :=
  if rows.any (fun e => e.user_id == r.user_id && e.course_id == r.course_id) then
    .error "23505"
  else .ok (rows ++ [r])

/-- Outcome of one `handleEnroll` invocation in `Courses.tsx`:
`notLoggedIn` is the pre-call "Debes iniciar sesión" toast;
`duplicate` is the non-destructive "Ya inscrito" toast raised when the
insert fails with code 23505; `genericError` is the destructive toast
re-raising any other error message; `success` is the "¡Inscripción
exitosa!" toast. -/
inductive EnrollResult where
  | notLoggedIn
  | duplicate
  | genericError (message : String)
  | success
deriving DecidableEq, Repr

/-- The `handleEnroll` function of `Courses.tsx` together with the table
it writes: requires a logged-in user, inserts the `(user, course)` pair,
maps error code 23505 to the distinct duplicate outcome, re-throws any
other error to the generic catch, and performs no capacity check of any
kind. Returns the outcome and the resulting table rows. -/
def handleEnroll (user : Option String) (rows : List EnrollmentRow)
    (courseId : String) : EnrollResult × List EnrollmentRow :=
  match user with
  | none => (.notLoggedIn, rows)
  | some uid =>
    match dbInsertEnrollment rows ⟨uid, courseId⟩ with
    | .error code =>
      if code == "23505" then (.duplicate, rows) else (.genericError code, rows)
    | .ok rows' => (.success, rows')

/-- The course-card capacity display of the `CourseCard` component:
`availableSpots = maxCapacity - enrolledCount`, and the "Completo" badge
is shown exactly when `availableSpots <= 0`. Capacities are JavaScript
numbers, hence integers here. -/
def courseCardIsFull (enrolledCount maxCapacity : Int) : Bool :=
  maxCapacity - enrolledCount ≤ 0

/-- The fields of the course form validated by `courseFormSchema`
(`CourseFormDialog.tsx`). Dates are required by the schema, so they are
not optional here; numeric fields are JavaScript numbers. -/
structure CourseFormData where
  title : String
  description : Option String
  category : String
  instructor_id : Option String
  start_date : Date
  end_date : Date
  schedule_days : List String
  schedule_time : String
  duration : String
  min_capacity : Int
  max_capacity : Int
  status : String
deriving DecidableEq, Repr

/-- The zod `courseFormSchema` of `CourseFormDialog.tsx` as the predicate
it decides: title nonempty and at most 100 characters, description at
most 500 characters when present, category nonempty, at least one
schedule day, nonempty schedule time and duration, `min_capacity ≥ 1`,
`max_capacity ≥ 1`, and status one of the three enum values. The schema
contains no comparison between `min_capacity` and `max_capacity`. -/
def courseFormSchemaCheck (d : CourseFormData) : Bool :=
  1 ≤ d.title.length && d.title.length ≤ 100 &&
  (match d.description with
   | some s => s.length ≤ 500
   | none => true) &&
  1 ≤ d.category.length &&
  1 ≤ d.schedule_days.length &&
  1 ≤ d.schedule_time.length &&
  1 ≤ d.duration.length &&
  1 ≤ d.min_capacity && 1 ≤ d.max_capacity &&
  (d.status == "active" || d.status == "upcoming" || d.status == "completed")

/-- Concrete scenario A of the spec: start 2025-03-03 (a Monday), end
2025-03-14, Mondays and Wednesdays, 10:00, duration "2 horas". -/
def scenarioACourse : Course :=
  { id := "course-a"
    title := "Curso A"
    start_date := ⟨2025, 3, 3⟩
    end_date := some ⟨2025, 3, 14⟩
    schedule_days := some ["monday", "wednesday"]
    schedule_time := some "10:00"
    duration := "2 horas" }

/-- The four session records expected for scenario A: 2025-03-03,
2025-03-05, 2025-03-10 and 2025-03-12 (civil day numbers 739618, 739620,
739625, 739627), each 10:00 to 12:00. -/
def scenarioASessions : List SessionInsert :=
  [⟨"course-a", (Date.mk 2025 3 3).toDay, "10:00", "12:00", none, none, false⟩,
   ⟨"course-a", (Date.mk 2025 3 5).toDay, "10:00", "12:00", none, none, false⟩,
   ⟨"course-a", (Date.mk 2025 3 10).toDay, "10:00", "12:00", none, none, false⟩,
   ⟨"course-a", (Date.mk 2025 3 12).toDay, "10:00", "12:00", none, none, false⟩]

theorem mem_expandLoop (days : List (Option Nat)) :
    ∀ n cur d : Nat, d ∈ expandLoop cur days n ↔
      (cur ≤ d ∧ d < cur + n ∧ some (getDay d) ∈ days) := by
  intro n
  induction n with
  | zero =>
    intro cur d
    constructor
    · intro h
      exact absurd h (List.not_mem_nil d)
    · rintro ⟨h1, h2, h3⟩
      omega
  | succ n ih =>
    intro cur d
    simp only [expandLoop]
    by_cases h : some (getDay cur) ∈ days
    · simp only [if_pos h, List.mem_cons, ih]
      constructor
      · rintro (rfl | ⟨h1, h2, h3⟩)
        · exact ⟨Nat.le_refl _, by omega, h⟩
        · exact ⟨by omega, by omega, h3⟩
      · rintro ⟨h1, h2, h3⟩
        by_cases hd : d = cur
        · exact Or.inl hd
        · exact Or.inr ⟨by omega, by omega, h3⟩
    · rw [if_neg h, ih]
      constructor
      · rintro ⟨h1, h2, h3⟩
        exact ⟨by omega, by omega, h3⟩
      · rintro ⟨h1, h2, h3⟩
        refine ⟨?_, by omega, h3⟩
        rcases Nat.eq_or_lt_of_le h1 with heq | hlt
        · exact absurd (heq ▸ h3) h
        · omega

theorem pairwise_expandLoop (days : List (Option Nat)) :
    ∀ n cur : Nat, (expandLoop cur days n).Pairwise (fun a b => a < b) := by
  intro n
  induction n with
  | zero =>
    intro cur
    exact List.Pairwise.nil
  | succ n ih =>
    intro cur
    simp only [expandLoop]
    by_cases h : some (getDay cur) ∈ days
    · rw [if_pos h]
      refine List.Pairwise.cons ?_ (ih (cur + 1))
      intro b hb
      have hm := (mem_expandLoop days n (cur + 1) b).1 hb
      omega
    · rw [if_neg h]
      exact ih (cur + 1)

/-- C1: for a course with a non-empty weekday set, both dates present and
start ≤ end, `generateSessions` builds exactly one session record per
calendar day in the inclusive range whose weekday is in the selected set,
in strictly ascending date order, all sharing the course's start time
(and inserts them whenever the list is non-empty); in particular, for
start 2025-03-03, end 2025-03-14, weekdays {monday, wednesday}, 10:00 and
duration "2 horas", the sessions are 2025-03-03, 2025-03-05, 2025-03-10
and 2025-03-12, each 10:00 to 12:00. -/
theorem generateSessions_expands_schedule
    (c : Course) (ds : List String) (ed : Date) (et : String)
    (hds : c.schedule_days = some ds) (hed : c.end_date = some ed)
    (hct : computeEndTime (jsOrString c.schedule_time "10:00")
      (parseDurationHours c.duration) = some et)
    (hle : c.start_date.toDay ≤ ed.toDay) :
    (∃ L : List SessionInsert,
      ((L = [] ∧ generateSessions (some c) = .noSessions) ∨
        (L ≠ [] ∧ generateSessions (some c) = .inserted L)) ∧
      (∀ d : Nat, (∃ s ∈ L, s.session_date = d) ↔
        (c.start_date.toDay ≤ d ∧ d ≤ ed.toDay ∧
          some (getDay d) ∈ ds.map DAY_MAP)) ∧
      (L.map SessionInsert.session_date).Pairwise (fun a b => a < b) ∧
      (∀ s ∈ L, s.start_time = jsOrString c.schedule_time "10:00")) ∧
    generateSessions (some scenarioACourse) = .inserted scenarioASessions := by
  constructor
  · refine ⟨(expandLoop c.start_date.toDay (ds.map DAY_MAP)
      (ed.toDay + 1 - c.start_date.toDay)).map (fun d =>
        { course_id := c.id
          session_date := d
          start_time := jsOrString c.schedule_time "10:00"
          end_time := et
          location := none
          notes := none
          is_cancelled := false }), ?_, ?_, ?_, ?_⟩
    · by_cases hE : expandLoop c.start_date.toDay (ds.map DAY_MAP)
        (ed.toDay + 1 - c.start_date.toDay) = []
      · exact Or.inl (by simp [generateSessions, hds, hed, hct, hE])
      · exact Or.inr (by simp [generateSessions, hds, hed, hct, hE])
    · intro d
      constructor
      · rintro ⟨s, hs, hd⟩
        obtain ⟨a, ha, rfl⟩ := List.mem_map.1 hs
        have hm := (mem_expandLoop (ds.map DAY_MAP) _ _ a).1 ha
        have hda : a = d := hd
        subst hda
        exact ⟨hm.1, by omega, hm.2.2⟩
      · rintro ⟨h1, h2, h3⟩
        exact ⟨_, List.mem_map.2 ⟨d, (mem_expandLoop (ds.map DAY_MAP) _ _ d).2
          ⟨h1, by omega, h3⟩, rfl⟩, rfl⟩
    · simp only [List.map_map]
      have hcomp : (SessionInsert.session_date ∘ fun d =>
          ({ course_id := c.id
             session_date := d
             start_time := jsOrString c.schedule_time "10:00"
             end_time := et
             location := none
             notes := none
             is_cancelled := false } : SessionInsert)) = fun d => d := rfl
      rw [hcomp, List.map_id']
      exact pairwise_expandLoop _ _ _
    · intro s hs
      obtain ⟨a, ha, rfl⟩ := List.mem_map.1 hs
      rfl
  · decide

/-- Witness for C1: the main expansion theorem applied to concrete
scenario A, all hypotheses discharged by computation. -/
theorem generateSessions_expands_schedule_witness :
    (∃ L : List SessionInsert,
      ((L = [] ∧ generateSessions (some scenarioACourse) = .noSessions) ∨
        (L ≠ [] ∧ generateSessions (some scenarioACourse) = .inserted L)) ∧
      (∀ d : Nat, (∃ s ∈ L, s.session_date = d) ↔
        (scenarioACourse.start_date.toDay ≤ d ∧ d ≤ (Date.mk 2025 3 14).toDay ∧
          some (getDay d) ∈ (["monday", "wednesday"].map DAY_MAP))) ∧
      (L.map SessionInsert.session_date).Pairwise (fun a b => a < b) ∧
      (∀ s ∈ L, s.start_time = jsOrString scenarioACourse.schedule_time "10:00")) ∧
    generateSessions (some scenarioACourse) = .inserted scenarioASessions :=
  generateSessions_expands_schedule scenarioACourse ["monday", "wednesday"]
    ⟨2025, 3, 14⟩ "12:00" rfl rfl (by decide) (by decide)

/-- C5: when no calendar day of the inclusive range has its weekday in
the selected set, `generateSessions` yields the `noSessions` outcome (the
non-destructive "Sin sesiones" toast), which is distinct from every error
outcome, and no insert is attempted (the result is not `inserted`). -/
theorem generateSessions_empty_schedule
    (c : Course) (ds : List String) (ed : Date) (et : String)
    (hds : c.schedule_days = some ds) (hed : c.end_date = some ed)
    (hct : computeEndTime (jsOrString c.schedule_time "10:00")
      (parseDurationHours c.duration) = some et)
    (hnone : ∀ d : Nat, c.start_date.toDay ≤ d → d ≤ ed.toDay →
      some (getDay d) ∉ ds.map DAY_MAP) :
    generateSessions (some c) = .noSessions ∧
    (∀ msg, (GenerateResult.noSessions : GenerateResult) ≠ .validationError msg) ∧
    (GenerateResult.noSessions : GenerateResult) ≠ .thrownError ∧
    (∀ l, (GenerateResult.noSessions : GenerateResult) ≠ .inserted l) := by
  have hE : expandLoop c.start_date.toDay (ds.map DAY_MAP)
      (ed.toDay + 1 - c.start_date.toDay) = [] := by
    refine List.eq_nil_iff_forall_not_mem.mpr (fun a ha => ?_)
    have hm := (mem_expandLoop (ds.map DAY_MAP) _ _ a).1 ha
    exact hnone a hm.1 (by omega) hm.2.2
  refine ⟨by simp [generateSessions, hds, hed, hct, hE], ?_, ?_, ?_⟩
  · intro msg h
    exact GenerateResult.noConfusion h
  · intro h
    exact GenerateResult.noConfusion h
  · intro l h
    exact GenerateResult.noConfusion h

/-- Concrete scenario B of the spec: a Monday-to-Friday range
(2025-03-03 to 2025-03-07) with only "sunday" selected, which contains no
Sunday. -/
def scenarioBCourse : Course :=
  { id := "course-b"
    title := "Curso B"
    start_date := ⟨2025, 3, 3⟩
    end_date := some ⟨2025, 3, 7⟩
    schedule_days := some ["sunday"]
    schedule_time := some "10:00"
    duration := "2 horas" }

/-- Witness for C5: scenario B, a range containing no Sunday with only
Sundays selected. -/
theorem generateSessions_empty_schedule_witness :
    generateSessions (some scenarioBCourse) = .noSessions ∧
    (∀ msg, (GenerateResult.noSessions : GenerateResult) ≠ .validationError msg) ∧
    (GenerateResult.noSessions : GenerateResult) ≠ .thrownError ∧
    (∀ l, (GenerateResult.noSessions : GenerateResult) ≠ .inserted l) :=
  generateSessions_empty_schedule scenarioBCourse ["sunday"] ⟨2025, 3, 7⟩ "12:00"
    rfl rfl (by decide)
    (by
      intro d h1 h2 hmem
      have e1 : scenarioBCourse.start_date.toDay = 739618 := by decide
      have e2 : (Date.mk 2025 3 7).toDay = 739622 := by decide
      have hd : d ∈ expandLoop 739618 ((["sunday"] : List String).map DAY_MAP) 5 :=
        (mem_expandLoop _ _ _ _).2 ⟨by omega, by omega, hmem⟩
      have he : expandLoop 739618 ((["sunday"] : List String).map DAY_MAP) 5 = [] := by
        decide
      rw [he] at hd
      exact absurd hd (List.not_mem_nil d))

/-- C7: when the course's `end_date` or its weekday set is absent (null),
`generateSessions` returns the validation-error outcome — the destructive
toast raised before any remote call — and the result is neither an insert
nor the no-sessions signal, so no session insert is attempted. -/
theorem generateSessions_missing_schedule (c : Course)
    (h : c.end_date = none ∨ c.schedule_days = none) :
    generateSessions (some c) =
      .validationError "El curso debe tener días de clase y fecha de fin" ∧
    (∀ l, generateSessions (some c) ≠ .inserted l) ∧
    generateSessions (some c) ≠ .noSessions := by
  have hv : generateSessions (some c) =
      .validationError "El curso debe tener días de clase y fecha de fin" := by
    rcases hsd : c.schedule_days with _ | ds <;>
      rcases hed : c.end_date with _ | ed <;>
        simp_all [generateSessions]
  refine ⟨hv, ?_, ?_⟩
  · intro l hl
    rw [hv] at hl
    exact GenerateResult.noConfusion hl
  · intro hl
    rw [hv] at hl
    exact GenerateResult.noConfusion hl

/-- Witness for C7: a course with weekdays selected but no end date. -/
theorem generateSessions_missing_schedule_witness :
    generateSessions (some
      { id := "course-c"
        title := "Curso C"
        start_date := ⟨2025, 3, 3⟩
        end_date := none
        schedule_days := some ["monday"]
        schedule_time := some "10:00"
        duration := "2 horas" }) =
      .validationError "El curso debe tener días de clase y fecha de fin" ∧
    (∀ l, generateSessions (some
      { id := "course-c"
        title := "Curso C"
        start_date := ⟨2025, 3, 3⟩
        end_date := none
        schedule_days := some ["monday"]
        schedule_time := some "10:00"
        duration := "2 horas" }) ≠ .inserted l) ∧
    generateSessions (some
      { id := "course-c"
        title := "Curso C"
        start_date := ⟨2025, 3, 3⟩
        end_date := none
        schedule_days := some ["monday"]
        schedule_time := some "10:00"
        duration := "2 horas" }) ≠ .noSessions :=
  generateSessions_missing_schedule _ (Or.inl rfl)

/-- C10: when `schedule_time` is null or the empty string,
`generateSessions` does not fail: the start time falls back to "10:00"
(JavaScript `||` on a falsy value), so the outcome is never an error, and
every generated session has start time "10:00" and the end time computed
from hour 10 plus the parsed duration. -/
theorem generateSessions_time_fallback (c : Course) (ds : List String) (ed : Date)
    (hds : c.schedule_days = some ds) (hed : c.end_date = some ed)
    (ht : c.schedule_time = none ∨ c.schedule_time = some "") :
    (∀ msg, generateSessions (some c) ≠ .validationError msg) ∧
    generateSessions (some c) ≠ .thrownError ∧
    (generateSessions (some c) = .noSessions ∨
      ∃ L, generateSessions (some c) = .inserted L ∧ L ≠ [] ∧
        ∀ s ∈ L, s.start_time = "10:00" ∧
          s.end_time = padStart2 (jsNumToString (some
            (10 + parseDurationHours c.duration))) ++ ":" ++
            padStart2 (jsNumToString (some 0))) := by
  have hst : jsOrString c.schedule_time "10:00" = "10:00" := by
    rcases ht with h | h <;> simp [jsOrString, h]
  have hct : computeEndTime (jsOrString c.schedule_time "10:00")
      (parseDurationHours c.duration) =
      some (padStart2 (jsNumToString (some
        (10 + parseDurationHours c.duration))) ++ ":" ++
        padStart2 (jsNumToString (some 0))) := by
    rw [hst]
    rfl
  by_cases hE : expandLoop c.start_date.toDay (ds.map DAY_MAP)
      (ed.toDay + 1 - c.start_date.toDay) = []
  · have hg : generateSessions (some c) = .noSessions := by
      simp [generateSessions, hds, hed, hct, hE]
    refine ⟨?_, ?_, Or.inl hg⟩
    · intro msg hl
      rw [hg] at hl
      exact GenerateResult.noConfusion hl
    · intro hl
      rw [hg] at hl
      exact GenerateResult.noConfusion hl
  · have hg : generateSessions (some c) = .inserted
        ((expandLoop c.start_date.toDay (ds.map DAY_MAP)
          (ed.toDay + 1 - c.start_date.toDay)).map (fun d =>
            { course_id := c.id
              session_date := d
              start_time := jsOrString c.schedule_time "10:00"
              end_time := padStart2 (jsNumToString (some
                (10 + parseDurationHours c.duration))) ++ ":" ++
                padStart2 (jsNumToString (some 0))
              location := none
              notes := none
              is_cancelled := false })) := by
      simp [generateSessions, hds, hed, hct, hE]
    refine ⟨?_, ?_, Or.inr ⟨_, hg, ?_, ?_⟩⟩
    · intro msg hl
      rw [hg] at hl
      exact GenerateResult.noConfusion hl
    · intro hl
      rw [hg] at hl
      exact GenerateResult.noConfusion hl
    · intro hnil
      exact hE (List.map_eq_nil_iff.mp hnil)
    · intro s hs
      obtain ⟨a, ha, rfl⟩ := List.mem_map.1 hs
      exact ⟨hst, rfl⟩

/-- Witness for C10: scenario A's course with a null schedule_time. -/
theorem generateSessions_time_fallback_witness :
    (∀ msg, generateSessions (some
      { scenarioACourse with schedule_time := none }) ≠ .validationError msg) ∧
    generateSessions (some
      { scenarioACourse with schedule_time := none }) ≠ .thrownError ∧
    (generateSessions (some
      { scenarioACourse with schedule_time := none }) = .noSessions ∨
      ∃ L, generateSessions (some
        { scenarioACourse with schedule_time := none }) = .inserted L ∧ L ≠ [] ∧
        ∀ s ∈ L, s.start_time = "10:00" ∧
          s.end_time = padStart2 (jsNumToString (some
            (10 + parseDurationHours "2 horas"))) ++ ":" ++
            padStart2 (jsNumToString (some 0))) :=
  generateSessions_time_fallback
    { scenarioACourse with schedule_time := none }
    ["monday", "wednesday"] ⟨2025, 3, 14⟩ rfl rfl (Or.inl rfl)

/-- A course whose session crosses midnight: start 23:00, duration
"2 horas", a single matching Monday (2025-03-03). -/
def scenarioXCourse : Course :=
  { id := "course-x"
    title := "Curso X"
    start_date := ⟨2025, 3, 3⟩
    end_date := some ⟨2025, 3, 3⟩
    schedule_days := some ["monday"]
    schedule_time := some "23:00"
    duration := "2 horas" }

/-- The single session generated for `scenarioXCourse`: its end hour is
the plain sum 23 + 2 = 25, rendered "25:00". -/
def scenarioXSession : SessionInsert :=
  ⟨"course-x", (Date.mk 2025 3 3).toDay, "23:00", "25:00", none, none, false⟩

/-- C4 counterexample: for a course starting at 23:00 with duration
"2 horas", the generated session's end time is "25:00" — the end hour is
not reduced modulo 24, so it differs from the value "01:00" that the
mod-24 claim predicts (`padStart2` of `(23 + 2) % 24`). -/
theorem generateSessions_end_time_counterexample :
    generateSessions (some scenarioXCourse) = .inserted [scenarioXSession] ∧
    scenarioXSession.end_time ≠
      padStart2 (natRepr ((23 + 2) % 24)) ++ ":" ++ padStart2 (natRepr 0) := by
  decide

/-- C4 amended: for every generated session, the end time is the start
hour plus the parsed duration with no reduction modulo 24 (the sum may
pass 23 and is rendered as such), zero-padded `HH:MM` with the start
minutes unchanged; the duration is the value of the first digit run of
the free-text duration field and defaults to 2 when the field contains no
digit. -/
theorem generateSessions_end_time (c : Course) (ds : List String) (ed : Date)
    (hrs mins : Nat) (p q : List Char) (rest : List (List Char))
    (L : List SessionInsert)
    (hds : c.schedule_days = some ds) (hed : c.end_date = some ed)
    (hsplit : splitOnChar ':' (jsOrString c.schedule_time "10:00").data =
      p :: q :: rest)
    (hh : jsNumber ⟨p⟩ = some hrs) (hm : jsNumber ⟨q⟩ = some mins)
    (hg : generateSessions (some c) = .inserted L) :
    (∀ s ∈ L, s.end_time =
      padStart2 (natRepr (hrs + parseDurationHours c.duration)) ++ ":" ++
        padStart2 (natRepr mins)) ∧
    (∀ t : String, firstDigitRun t.data = none → parseDurationHours t = 2) := by
  have hct : computeEndTime (jsOrString c.schedule_time "10:00")
      (parseDurationHours c.duration) =
      some (padStart2 (natRepr (hrs + parseDurationHours c.duration)) ++ ":" ++
        padStart2 (natRepr mins)) := by
    unfold computeEndTime
    rw [hsplit]
    simp [hh, hm, jsNumToString]
  by_cases hE : expandLoop c.start_date.toDay (ds.map DAY_MAP)
      (ed.toDay + 1 - c.start_date.toDay) = []
  · have hn : generateSessions (some c) = .noSessions := by
      simp [generateSessions, hds, hed, hct, hE]
    rw [hn] at hg
    exact absurd hg (fun hx => GenerateResult.noConfusion hx)
  · have hg2 : generateSessions (some c) = .inserted
        ((expandLoop c.start_date.toDay (ds.map DAY_MAP)
          (ed.toDay + 1 - c.start_date.toDay)).map (fun d =>
            { course_id := c.id
              session_date := d
              start_time := jsOrString c.schedule_time "10:00"
              end_time := padStart2 (natRepr
                (hrs + parseDurationHours c.duration)) ++ ":" ++
                padStart2 (natRepr mins)
              location := none
              notes := none
              is_cancelled := false })) := by
      simp [generateSessions, hds, hed, hct, hE]
    rw [hg2] at hg
    have hL := GenerateResult.inserted.inj hg
    constructor
    · intro s hs
      rw [← hL] at hs
      obtain ⟨a, ha, rfl⟩ := List.mem_map.1 hs
      rfl
    · intro t ht
      simp [parseDurationHours, ht]

/-- Witness for the C4 amended theorem: the overflow course, where the
end time is 23 + 2 = 25 o'clock. -/
theorem generateSessions_end_time_witness :
    (∀ s ∈ [scenarioXSession], s.end_time =
      padStart2 (natRepr (23 + parseDurationHours scenarioXCourse.duration)) ++
        ":" ++ padStart2 (natRepr 0)) ∧
    (∀ t : String, firstDigitRun t.data = none → parseDurationHours t = 2) :=
  generateSessions_end_time scenarioXCourse ["monday"] ⟨2025, 3, 3⟩ 23 0
    ['2', '3'] ['0', '0'] [] [scenarioXSession] rfl rfl (by decide) (by decide)
    (by decide) (by decide)

/-- Full state well-formedness for the attendance table: the row
invariants plus freshness of the next primary key. -/
def attendanceStateWF (st : AttendanceState) : Prop :=
  attendanceWF st.rows ∧ ∀ r ∈ st.rows, r.id < st.nextId

theorem attendanceMatches_iff (s u : String) (a : AttendanceRow) :
    attendanceMatches s u a = true ↔ (a.session_id = s ∧ a.user_id = u) := by
  simp [attendanceMatches]

theorem attendanceMatches_update (s u v : String) (i : Nat) (r : AttendanceRow) :
    attendanceMatches s u (if r.id == i then { r with status := v } else r) =
      attendanceMatches s u r := by
  by_cases h : r.id = i <;> simp [h, attendanceMatches]

theorem update_preserves_fields (v : String) (i : Nat) (r : AttendanceRow) :
    (if r.id == i then { r with status := v } else r).session_id = r.session_id ∧
    (if r.id == i then { r with status := v } else r).user_id = r.user_id ∧
    (if r.id == i then { r with status := v } else r).id = r.id := by
  by_cases h : r.id = i <;> simp [h]

theorem filter_matches_eq_single (s u : String) :
    ∀ (rows : List AttendanceRow) (ex : AttendanceRow),
      attendanceWF rows → ex ∈ rows → attendanceMatches s u ex = true →
      rows.filter (attendanceMatches s u) = [ex] := by
  intro rows
  induction rows with
  | nil =>
    intro ex _ hmem _
    exact absurd hmem (List.not_mem_nil ex)
  | cons a rows ih =>
    intro ex hwf hmem hmatch
    have hpw := List.pairwise_cons.mp hwf
    rcases List.mem_cons.mp hmem with heq | hmem'
    · rw [heq] at hmatch ⊢
      have hrest : rows.filter (attendanceMatches s u) = [] := by
        refine List.filter_eq_nil_iff.mpr (fun b hb hb2 => ?_)
        obtain ⟨hs1, hu1⟩ := (attendanceMatches_iff s u a).mp hmatch
        obtain ⟨hs2, hu2⟩ := (attendanceMatches_iff s u b).mp hb2
        exact (hpw.1 b hb).1 ⟨by rw [hs1, hs2], by rw [hu1, hu2]⟩
      simp [List.filter_cons, hmatch, hrest]
    · have hna : ¬ attendanceMatches s u a = true := by
        intro hma
        obtain ⟨hs1, hu1⟩ := (attendanceMatches_iff s u a).mp hma
        obtain ⟨hs2, hu2⟩ := (attendanceMatches_iff s u ex).mp hmatch
        exact (hpw.1 ex hmem').1 ⟨by rw [hs1, hs2], by rw [hu1, hu2]⟩
      simp only [List.filter_cons, hna, if_false]
      · exact ih ex hpw.2 hmem' hmatch

theorem updateAttendance_filter (st : AttendanceState) (s u v : String)
    (hwf : attendanceStateWF st) :
    ((updateAttendance st s u v).rows.filter (attendanceMatches s u)).map
      AttendanceRow.status = [v] := by
  rcases hfind : st.rows.find? (attendanceMatches s u) with _ | ex <;>
    simp only [updateAttendance, hfind]
  · have h1 : st.rows.filter (attendanceMatches s u) = [] :=
      List.filter_eq_nil_iff.mpr (fun a ha => List.find?_eq_none.mp hfind a ha)
    rw [List.filter_append, h1]
    simp [attendanceMatches]
  · have hmem := List.mem_of_find?_eq_some hfind
    have hmatch := List.find?_some hfind
    rw [List.filter_map]
    have hcomp : (attendanceMatches s u ∘ fun r =>
        if r.id == ex.id then { r with status := v } else r) =
        attendanceMatches s u :=
      funext (attendanceMatches_update s u v ex.id)
    rw [hcomp, filter_matches_eq_single s u st.rows ex hwf.1 hmem hmatch]
    simp

theorem updateAttendance_wf (st : AttendanceState) (s u v : String)
    (hwf : attendanceStateWF st) :
    attendanceStateWF (updateAttendance st s u v) := by
  obtain ⟨hpw, hid⟩ := hwf
  rcases hfind : st.rows.find? (attendanceMatches s u) with _ | ex <;>
    simp only [updateAttendance, hfind]
  · constructor
    · refine List.pairwise_append.mpr ⟨hpw, by simp [attendanceWF], ?_⟩
      intro a ha b hb
      rcases List.mem_singleton.mp hb with rfl
      constructor
      · rintro ⟨hs2, hu2⟩
        have hna := List.find?_eq_none.mp hfind a ha
        apply hna
        exact (attendanceMatches_iff s u a).mpr ⟨hs2, hu2⟩
      · intro heq
        have hlt := hid a ha
        rw [heq] at hlt
        exact Nat.lt_irrefl _ hlt
    · intro r hr
      rcases List.mem_append.mp hr with h | h
      · exact Nat.lt_succ_of_lt (hid r h)
      · rcases List.mem_singleton.mp h with rfl
        exact Nat.lt_succ_self _
  · constructor
    · refine List.Pairwise.map _ (fun a b hab => ?_) hpw
      obtain ⟨pa1, pa2, pa3⟩ := update_preserves_fields v ex.id a
      obtain ⟨pb1, pb2, pb3⟩ := update_preserves_fields v ex.id b
      rw [pa1, pa2, pa3, pb1, pb2, pb3]
      exact hab
    · intro r hr
      obtain ⟨a, ha, rfl⟩ := List.mem_map.1 hr
      obtain ⟨_, _, p3⟩ := update_preserves_fields v ex.id a
      rw [p3]
      exact hid a ha

/-- C2: on a well-formed attendance table (unique `(session, user)` pairs,
unique ids, fresh next id — the database constraints), repeated calls to
set the status of a pair leave exactly one row for that pair whose status
is the most recently set value: after the first call the rows matching the
pair are exactly one row with status `v1`, and after the second call
exactly one row with status `v2` — the call updates the existing record
when one exists and inserts a new one otherwise. -/
theorem updateAttendance_upsert (st : AttendanceState) (s u v1 v2 : String)
    (hwf : attendanceStateWF st) :
    (((updateAttendance st s u v1).rows.filter (attendanceMatches s u)).map
      AttendanceRow.status = [v1]) ∧
    (((updateAttendance (updateAttendance st s u v1) s u v2).rows.filter
      (attendanceMatches s u)).map AttendanceRow.status = [v2]) :=
  ⟨updateAttendance_filter st s u v1 hwf,
   updateAttendance_filter _ s u v2 (updateAttendance_wf st s u v1 hwf)⟩

/-- A small well-formed attendance table: one existing row for session s1
and user u2. -/
def attendanceExampleState : AttendanceState :=
  { rows := [⟨0, "s1", "u2", "present"⟩], nextId := 1 }

/-- Witness for C2: mark (s1, u1) present and then absent starting from
`attendanceExampleState`; exactly one row for the pair remains, with
status "absent" (this exercises the insert path then the update path). -/
theorem updateAttendance_upsert_witness :
    (((updateAttendance attendanceExampleState "s1" "u1" "present").rows.filter
      (attendanceMatches "s1" "u1")).map AttendanceRow.status = ["present"]) ∧
    (((updateAttendance (updateAttendance attendanceExampleState "s1" "u1"
      "present") "s1" "u1" "absent").rows.filter
      (attendanceMatches "s1" "u1")).map AttendanceRow.status = ["absent"]) :=
  updateAttendance_upsert attendanceExampleState "s1" "u1" "present" "absent"
    (by constructor
        · simp [attendanceWF, attendanceExampleState]
        · simp [attendanceExampleState])

/-- C9: under the CHECK constraint on stored statuses, `getAttendanceStatus`
always returns one of {present, absent, excused, pending}, and returns
"pending" when no record exists for the `(session, user)` pair — the
absence of a record is not an error (the function is total). -/
theorem getAttendanceStatus_range (attendances : List AttendanceRow)
    (s u : String)
    (hvalid : ∀ a ∈ attendances, validAttendanceStatus a.status = true) :
    validAttendanceStatus (getAttendanceStatus attendances s u) = true ∧
    ((∀ a ∈ attendances, attendanceMatches s u a = false) →
      getAttendanceStatus attendances s u = "pending") := by
  constructor
  · rcases hfind : attendances.find? (attendanceMatches s u) with _ | a <;>
      simp only [getAttendanceStatus, hfind]
    · decide
    · exact hvalid a (List.mem_of_find?_eq_some hfind)
  · intro hnone
    have hfind : attendances.find? (attendanceMatches s u) = none :=
      List.find?_eq_none.mpr (fun a ha => by simp [hnone a ha])
    simp only [getAttendanceStatus, hfind]

/-- Witness for C9: a table holding one present row for (s1, u2); the
status of the absent pair (s1, u1) is "pending". -/
theorem getAttendanceStatus_range_witness :
    validAttendanceStatus
      (getAttendanceStatus attendanceExampleState.rows "s1" "u1") = true ∧
    ((∀ a ∈ attendanceExampleState.rows,
        attendanceMatches "s1" "u1" a = false) →
      getAttendanceStatus attendanceExampleState.rows "s1" "u1" = "pending") :=
  getAttendanceStatus_range attendanceExampleState.rows "s1" "u1" (by decide)

/-- The pair predicate of the enrollments uniqueness constraint. -/
def enrollmentMatches (u cid : String) (r : EnrollmentRow) : Bool :=
  r.user_id == u && r.course_id == cid

theorem handleEnroll_fresh (rows : List EnrollmentRow) (u cid : String)
    (hfresh : rows.filter (enrollmentMatches u cid) = []) :
    handleEnroll (some u) rows cid = (.success, rows ++ [⟨u, cid⟩]) := by
  have hall := List.filter_eq_nil_iff.mp hfresh
  have hany : rows.any (fun e => e.user_id == u && e.course_id == cid) = false := by
    rw [List.any_eq_false]
    intro x hx
    exact hall x hx
  simp [handleEnroll, dbInsertEnrollment, hany]

theorem handleEnroll_existing (rows : List EnrollmentRow) (u cid : String)
    (hmem : (⟨u, cid⟩ : EnrollmentRow) ∈ rows) :
    handleEnroll (some u) rows cid = (.duplicate, rows) := by
  have hany : rows.any (fun e => e.user_id == u && e.course_id == cid) = true :=
    List.any_eq_true.mpr ⟨⟨u, cid⟩, hmem, by simp⟩
  simp [handleEnroll, dbInsertEnrollment, hany]

/-- C3: enrolling a user in a course with no prior enrollment succeeds and
persists exactly one row for the pair; attempting to enroll again is
rejected by the `UNIQUE (user_id, course_id)` constraint (code 23505) and
reported as the distinct duplicate outcome — not the generic error — and
exactly one row for the pair remains afterwards. -/
theorem handleEnroll_duplicate (rows : List EnrollmentRow) (u cid : String)
    (hfresh : rows.filter (enrollmentMatches u cid) = []) :
    handleEnroll (some u) rows cid = (.success, rows ++ [⟨u, cid⟩]) ∧
    (rows ++ [(⟨u, cid⟩ : EnrollmentRow)]).filter (enrollmentMatches u cid) =
      [⟨u, cid⟩] ∧
    handleEnroll (some u) (rows ++ [⟨u, cid⟩]) cid =
      (.duplicate, rows ++ [⟨u, cid⟩]) ∧
    (∀ msg, (EnrollResult.duplicate : EnrollResult) ≠ .genericError msg) := by
  refine ⟨handleEnroll_fresh rows u cid hfresh, ?_, ?_, ?_⟩
  · rw [List.filter_append, hfresh]
    simp [enrollmentMatches]
  · exact handleEnroll_existing _ u cid (List.mem_append.mpr
      (Or.inr (List.mem_singleton.mpr rfl)))
  · intro msg h
    exact EnrollResult.noConfusion h

/-- Witness for C3: user-x enrolls twice in course-y starting from an
empty table. -/
theorem handleEnroll_duplicate_witness :
    handleEnroll (some "user-x") [] "course-y" =
      (.success, [] ++ [⟨"user-x", "course-y"⟩]) ∧
    ([] ++ [(⟨"user-x", "course-y"⟩ : EnrollmentRow)]).filter
      (enrollmentMatches "user-x" "course-y") = [⟨"user-x", "course-y"⟩] ∧
    handleEnroll (some "user-x") ([] ++ [⟨"user-x", "course-y"⟩]) "course-y" =
      (.duplicate, [] ++ [⟨"user-x", "course-y"⟩]) ∧
    (∀ msg, (EnrollResult.duplicate : EnrollResult) ≠ .genericError msg) :=
  handleEnroll_duplicate [] "user-x" "course-y" rfl

/-- C8: `handleEnroll` performs no validation against `max_capacity`: with
the course's enrolled count at or above capacity, enrolling a user with no
prior enrollment still succeeds and appends the row; fullness is only
flagged visually, by the course card's "Completo" badge condition, which
holds in that state. -/
theorem handleEnroll_ignores_capacity (rows : List EnrollmentRow)
    (u cid : String) (maxCapacity : Int)
    (hfresh : rows.filter (enrollmentMatches u cid) = [])
    (hfull : maxCapacity ≤
      ((rows.filter (fun r => r.course_id == cid)).length : Int)) :
    handleEnroll (some u) rows cid = (.success, rows ++ [⟨u, cid⟩]) ∧
    courseCardIsFull ((rows.filter (fun r => r.course_id == cid)).length : Int)
      maxCapacity = true := by
  refine ⟨handleEnroll_fresh rows u cid hfresh, ?_⟩
  simp only [courseCardIsFull, decide_eq_true_eq]
  omega

/-- Witness for C8: course-y has capacity 1 and already one enrollment
(user-a); user-x still enrolls successfully, and the card shows full. -/
theorem handleEnroll_ignores_capacity_witness :
    handleEnroll (some "user-x") [⟨"user-a", "course-y"⟩] "course-y" =
      (.success, [⟨"user-a", "course-y"⟩] ++ [⟨"user-x", "course-y"⟩]) ∧
    courseCardIsFull
      ((([(⟨"user-a", "course-y"⟩ : EnrollmentRow)].filter
        (fun r => r.course_id == "course-y")).length : Int)) 1 = true :=
  handleEnroll_ignores_capacity [⟨"user-a", "course-y"⟩] "user-x" "course-y" 1
    (by decide) (by decide)

/-- A concrete course form whose min_capacity (10) exceeds its
max_capacity (1). -/
def badCapacityForm : CourseFormData :=
  { title := "Curso"
    description := none
    category := "Arte"
    instructor_id := none
    start_date := ⟨2025, 3, 3⟩
    end_date := ⟨2025, 3, 14⟩
    schedule_days := ["monday"]
    schedule_time := "10:00"
    duration := "2 horas"
    min_capacity := 10
    max_capacity := 1
    status := "active" }

/-- C6 counterexample: the zod form validation accepts a course whose
min_capacity (10) exceeds its max_capacity (1) — the schema checks each
bound against 1 but never compares the two. -/
theorem courseFormSchema_accepts_min_gt_max :
    courseFormSchemaCheck badCapacityForm = true ∧
    ¬(badCapacityForm.min_capacity ≤ badCapacityForm.max_capacity) := by
  decide

/-- C6 amended: every course accepted by the form validation has
`min_capacity ≥ 1` and `max_capacity ≥ 1`; the relation
`min_capacity ≤ max_capacity` is not enforced. -/
theorem courseFormSchema_capacity_bounds (d : CourseFormData)
    (h : courseFormSchemaCheck d = true) :
    1 ≤ d.min_capacity ∧ 1 ≤ d.max_capacity := by
  simp only [courseFormSchemaCheck, Bool.and_eq_true, decide_eq_true_eq] at h
  exact ⟨h.1.1.2, h.1.2⟩

/-- Witness for the C6 amended theorem: the default form values
(min 5, max 25) pass validation. -/
theorem courseFormSchema_capacity_bounds_witness :
    1 ≤ (5 : Int) ∧ 1 ≤ (25 : Int) :=
  courseFormSchema_capacity_bounds
    { title := "Curso"
      description := none
      category := "Arte"
      instructor_id := none
      start_date := ⟨2025, 3, 3⟩
      end_date := ⟨2025, 3, 14⟩
      schedule_days := ["monday"]
      schedule_time := "10:00"
      duration := "2 horas"
      min_capacity := 5
      max_capacity := 25
      status := "active" } (by decide)

end IntegriaConnect
